import Mathlib

/-!
Verification of the TradeSafe arbitrage pipeline (mumbaihacks-tradesafe).

Shallow embedding of the decision-and-execution pipeline:
* the debate/consensus engine (src/lib/agents/debateAgent.ts),
* the capital allocator (src/lib/agents/capitalAllocation.ts),
* the risk assessor's score computation (src/lib/agents/riskAssessment.ts),
* the opportunity detector with its persistence buffer (src/lib/arbitrage,
  `detectArbitrage`),
* the Guardian safety gate of the autonomous runner and the execution engine
  with partial-fill handling.

JavaScript numbers are modelled as rationals (ℚ).  Where a claim depends on
IEEE-754 non-finite semantics (division by zero yielding Infinity or NaN and
the resulting comparisons), the value is modelled by the small sum type `JNum`
below, whose division and comparison agree with IEEE-754 on those cases
(division by zero is exact there; no rounding is involved).  Timestamps are
integers (milliseconds).  Free-form strings that only feed logging/UI
(`reason` strings, note lists, opportunity ids) are either omitted or replaced
by structured tags carrying the same data; audit-log *actions* are kept as the
literal strings the code writes.  Calls to external capabilities (the LLM
provider, the order-book fetch, `Math.random`, `Date.now`, the global state
store) are passed in as explicit parameters.
-/

namespace TradeSafe

/-- JavaScript number that may be non-finite: used exactly where the source
can produce `Infinity`/`NaN` (division by zero). -/
inductive JNum where
  | num (q : ℚ)
  | posInf
  | negInf
  | nan
deriving DecidableEq, Repr

/-- IEEE-754 division of two finite numbers: `a / 0` is `+∞` for `a > 0`,
`-∞` for `a < 0`, and `NaN` for `a = 0`; otherwise exact. -/
def jdivQ (a b : ℚ) : JNum :=
  if b ≠ 0 then .num (a / b)
  else if a > 0 then .posInf
  else if a < 0 then .negInf
  else .nan

/-- IEEE-754 comparison `x > q` against a finite number: any comparison with
`NaN` is false. -/
def jgtNum (x : JNum) (q : ℚ) : Bool :=
  match x with
  | .num a => a > q
  | .posInf => true
  | .negInf => false
  | .nan => false

/-- IEEE-754 comparison `x < q` against a finite number: any comparison with
`NaN` is false. -/
def jltNum (x : JNum) (q : ℚ) : Bool :=
  match x with
  | .num a => a < q
  | .posInf => false
  | .negInf => true
  | .nan => false

/-- IEEE-754 comparison `x ≥ q` against a finite number: any comparison with
`NaN` is false. -/
def jgeNum (x : JNum) (q : ℚ) : Bool :=
  match x with
  | .num a => a ≥ q
  | .posInf => true
  | .negInf => false
  | .nan => false

/-! ## Opportunity detector (src/lib/arbitrage, `detectArbitrage`) -/

/-- A discovered per-symbol price pair, the detector's input
(`DiscoveredPrice` from priceDiscovery). -/
structure DiscoveredPrice where
  symbol : String
  binancePrice : ℚ
  indianPrice : ℚ
deriving DecidableEq, Repr

/-- The `Opportunity` record as emitted by the detector.  The random suffix of the
source's `id` string is not modelled (the id is opaque downstream). -/
structure Opportunity where
  id : String
  symbol : String
  spreadPct : ℚ
  action : String
  estimatedGrossProfitPct : ℚ
  binancePrice : ℚ
  indianPrice : ℚ
  firstSeenTs : ℤ
  lastSeenTs : ℤ
  persistenceCount : ℕ
deriving DecidableEq, Repr

/-- A persistence-buffer entry (`OpportunityPersistence`). -/
structure OpportunityPersistence where
  opportunityKey : String
  firstSeenTs : ℤ
  lastSeenTs : ℤ
  persistenceCount : ℕ
  data : Opportunity
deriving DecidableEq, Repr

/-- The persistence buffer: the source's `Map<string, OpportunityPersistence>`
modelled by its lookup function. -/
abbrev Buffer := String → Option OpportunityPersistence

/-- The empty persistence buffer (the module-level initial state). -/
def emptyBuffer : Buffer := fun _ => none

/-- The `DetectArbitrageOptions` record with the source's defaults. -/
structure DetectOpts where
  minSpreadPct : ℚ := 1/2
  persistenceMs : ℤ := 2000
  minPersistenceCount : ℕ := 2
deriving DecidableEq, Repr

/-- The loop state of one `detectArbitrage` call: the buffer, the `seenKeys`
set (as a list, only membership matters) and the output list so far. -/
structure DetectState where
  buffer : Buffer
  seenKeys : List String
  opportunities : List Opportunity

/-- The detector's spread computation:
`spreadPct = (indianPrice - binancePrice) / binancePrice * 100`. -/
def spreadOf (p : DiscoveredPrice) : ℚ :=
  (p.indianPrice - p.binancePrice) / p.binancePrice * 100

/-- The `symbol_action` buffer key of a qualifying spread, the action taken
from the spread's sign. -/
def qualifiedKey (p : DiscoveredPrice) (spreadPct : ℚ) : String :=
  p.symbol ++ "_" ++
    (if spreadPct > 0 then "buy-binance-sell-india" else "buy-india-sell-binance")

/-- Re-observation of a buffered key: bump `lastSeenTs`/`persistenceCount`
and refresh the data snapshot (prices, spread, estimated profit with the
0.3 % fee buffer subtracted). -/
def updatedEntry (currentTime : ℤ) (p : DiscoveredPrice) (spreadPct : ℚ)
    (prev : OpportunityPersistence) : OpportunityPersistence :=
  { prev with
    lastSeenTs := currentTime
    persistenceCount := prev.persistenceCount + 1
    data := { prev.data with
      spreadPct := |spreadPct|
      estimatedGrossProfitPct := |spreadPct| - 3/10
      binancePrice := p.binancePrice
      indianPrice := p.indianPrice
      lastSeenTs := currentTime
      persistenceCount := prev.persistenceCount + 1 } }

/-- First observation of a key: a fresh buffer entry with
`persistenceCount = 1` and `firstSeenTs = lastSeenTs = now`. -/
def freshEntry (key : String) (currentTime : ℤ) (p : DiscoveredPrice)
    (spreadPct : ℚ) : OpportunityPersistence :=
  { opportunityKey := key
    firstSeenTs := currentTime
    lastSeenTs := currentTime
    persistenceCount := 1
    data :=
      { id := "opp_" ++ p.symbol
        symbol := p.symbol
        spreadPct := |spreadPct|
        action := if spreadPct > 0 then "buy-binance-sell-india" else "buy-india-sell-binance"
        estimatedGrossProfitPct := |spreadPct| - 3/10
        binancePrice := p.binancePrice
        indianPrice := p.indianPrice
        firstSeenTs := currentTime
        lastSeenTs := currentTime
        persistenceCount := 1 } }

/-- The buffer entry for a qualifying key after this poll: update when
present, fresh otherwise. -/
def entryFor (buffer : Buffer) (key : String) (currentTime : ℤ)
    (p : DiscoveredPrice) (spreadPct : ℚ) : OpportunityPersistence :=
  match buffer key with
  | some prev => updatedEntry currentTime p spreadPct prev
  | none => freshEntry key currentTime p spreadPct

/-- Processing of one qualifying price (spread at or above the threshold):
record the key as seen, insert/update its buffer entry, and emit the entry's
snapshot iff `persistenceCount ≥ minPersistenceCount` or
`currentTime - firstSeenTs ≥ persistenceMs`. -/
def processQualified (opts : DetectOpts) (currentTime : ℤ) (st : DetectState)
    (p : DiscoveredPrice) (spreadPct : ℚ) : DetectState :=
  let key := qualifiedKey p spreadPct
  let persistence := entryFor st.buffer key currentTime p spreadPct
  { buffer := fun k => if k = key then some persistence else st.buffer k
    seenKeys := st.seenKeys ++ [key]
    opportunities :=
      if persistence.persistenceCount ≥ opts.minPersistenceCount ∨
          currentTime - persistence.firstSeenTs ≥ opts.persistenceMs then
        st.opportunities ++ [persistence.data]
      else st.opportunities }

/-- One iteration of the `for (const priceData of prices)` loop of
`detectArbitrage`: skip falsy prices, skip spreads below the threshold,
otherwise process the qualifying pair. -/
def processPrice (opts : DetectOpts) (currentTime : ℤ) (st : DetectState)
    (p : DiscoveredPrice) : DetectState :=
  if p.binancePrice = 0 ∨ p.indianPrice = 0 then st
  else if |spreadOf p| < opts.minSpreadPct then st
  else processQualified opts currentTime st p (spreadOf p)

/-- The whole per-price loop of `detectArbitrage`. -/
def detectLoop (prices : List DiscoveredPrice) (opts : DetectOpts)
    (currentTime : ℤ) (buffer : Buffer) : DetectState :=
  prices.foldl (processPrice opts currentTime) ⟨buffer, [], []⟩

/-- The `(symbol, action)` keys observed (buffered) during one poll. -/
def observedKeys (prices : List DiscoveredPrice) (opts : DetectOpts)
    (currentTime : ℤ) (buffer : Buffer) : List String :=
  (detectLoop prices opts currentTime buffer).seenKeys

/-- The stale-entry garbage collection at the end of `detectArbitrage`:
a key not seen in this poll whose entry is older than 10000 ms is deleted. -/
def gcBuffer (buffer : Buffer) (seenKeys : List String) (currentTime : ℤ) : Buffer :=
  fun k =>
    match buffer k with
    | some p => if k ∉ seenKeys ∧ currentTime - p.lastSeenTs > 10000 then none else some p
    | none => none

/-- Descending insertion by `estimatedGrossProfitPct`
(`opportunities.sort((a, b) => b.estimatedGrossProfitPct - a.estimatedGrossProfitPct)`). -/
def insertByProfit (x : Opportunity) : List Opportunity → List Opportunity
  | [] => [x]
  | y :: ys =>
    if x.estimatedGrossProfitPct ≥ y.estimatedGrossProfitPct then x :: y :: ys
    else y :: insertByProfit x ys

/-- Sort opportunities descending by estimated profit. -/
def sortByProfitDesc (l : List Opportunity) : List Opportunity := l.foldr insertByProfit []

/-- Embedding of `detectArbitrage(prices, opts)`: run the per-price loop against the
persistence buffer, garbage-collect stale keys, and return the emitted
opportunities sorted by estimated profit together with the new buffer.
The source keeps the buffer in a module-level `Map`; here it is passed in
and returned. -/
def detectArbitrage (prices : List DiscoveredPrice) (opts : DetectOpts)
    (currentTime : ℤ) (buffer : Buffer) : List Opportunity × Buffer :=
  (sortByProfitDesc (detectLoop prices opts currentTime buffer).opportunities,
    gcBuffer (detectLoop prices opts currentTime buffer).buffer
      (detectLoop prices opts currentTime buffer).seenKeys currentTime)

/-- Buffer well-formedness: an entry's snapshot agrees with the entry on
`firstSeenTs`.  This holds for the empty buffer and is preserved by every
poll; the source maintains it because both fields are written together. -/
def BufferWF (buffer : Buffer) : Prop :=
  ∀ k p, buffer k = some p → p.data.firstSeenTs = p.firstSeenTs

/-- The persistence (debounce) criterion an emitted opportunity must meet. -/
def OppGood (opts : DetectOpts) (o : Opportunity) : Prop :=
  o.lastSeenTs - o.firstSeenTs ≥ opts.persistenceMs ∨
    o.persistenceCount ≥ opts.minPersistenceCount

/-! ## Risk assessor (src/lib/agents/riskAssessment.ts, `assessRisk`) -/

/-- The order-book liquidity estimate consumed by `assessRisk`. -/
structure LiquidityEstimate where
  fillableQty : ℚ
  expectedAvgPrice : ℚ
deriving DecidableEq, Repr

/-- The `RiskAssessmentResult` record (the `notes` string list, which only feeds the
audit/UI, is omitted). -/
structure RiskAssessmentResult where
  riskScore : ℚ
  slippagePct : ℚ
  volatilityPct : ℚ
  liquidityEstimate : LiquidityEstimate
deriving DecidableEq, Repr

/-- Step 3 of `assessRisk`: the slippage estimate from the order book,
`(expectedAvgPrice - midPrice) / midPrice * 100` with `midPrice =
indianPrice`, or an assumed 1 % when no liquidity data exists. -/
def assessSlippagePct (liq : LiquidityEstimate) (indianPrice : ℚ) : ℚ :=
  let midPrice := indianPrice
  if liq.fillableQty > 0 then (liq.expectedAvgPrice - midPrice) / midPrice * 100 else 1

/-- Step 4 of `assessRisk`: the base score of 50 with the spread-size
adjustment applied. -/
def spreadBase (spreadPct : ℚ) : ℚ :=
  if spreadPct > 2 then 50 - 20
  else if spreadPct > 1 then 50 - 10
  else if spreadPct < 1/2 then 50 + 20
  else 50

/-- Step 5 of `assessRisk`: the volatility penalty applied to the running
score. -/
def volAdjusted (volatilityPct riskScore : ℚ) : ℚ :=
  if volatilityPct > 1 then riskScore + 25
  else if volatilityPct > 1/2 then riskScore + 15
  else if volatilityPct < 1/10 then riskScore - 10
  else riskScore

/-- Step 6 of `assessRisk`: the fill-ratio adjustment applied to the running
score.  `fillRatio = liq.fillableQty / targetQuantity` keeps IEEE semantics
(`JNum`) because `targetQuantity` is a caller-supplied divisor. -/
def fillAdjusted (fillRatio : JNum) (riskScore : ℚ) : ℚ :=
  if jltNum fillRatio (1/2) then riskScore + 30
  else if jltNum fillRatio (4/5) then riskScore + 15
  else if jgeNum fillRatio 1 then riskScore - 5
  else riskScore

/-- Step 7 of `assessRisk`: the slippage penalty applied to the running
score. -/
def slipAdjusted (slippagePct riskScore : ℚ) : ℚ :=
  if |slippagePct| > 1/2 then riskScore + 20
  else if |slippagePct| > 1/5 then riskScore + 10
  else riskScore

/-- The deterministic score computation of `assessRisk` (steps 3–7 of the
source), parameterised by the derived `volatilityPct` (the source computes it
as the coefficient of variation of the rolling price history, or assumes 0.5
when fewer than two ticks exist) and by the fetched `liquidityEstimate`:
slippage from the order-book walk, a base score of 50, then the spread,
volatility, fill-ratio and slippage adjustments applied in source order,
clamped to [0, 100]. -/
def assessRiskCore (spreadPct volatilityPct : ℚ) (liq : LiquidityEstimate)
    (targetQuantity indianPrice : ℚ) : RiskAssessmentResult :=
  let slippagePct := assessSlippagePct liq indianPrice
  let fillRatio := jdivQ liq.fillableQty targetQuantity
  let r4 :=
    slipAdjusted slippagePct
      (fillAdjusted fillRatio (volAdjusted volatilityPct (spreadBase spreadPct)))
  ⟨max 0 (min 100 r4), |slippagePct|, volatilityPct, liq⟩

/-! ## Capital allocator (src/lib/agents/capitalAllocation.ts) -/

/-- The `Portfolio` record the single-opportunity allocator reads. -/
structure Portfolio where
  usdtBalance : ℚ
  maxTradeAmount : ℚ
deriving DecidableEq, Repr

/-- The `AllocationResult` record (the `reason` string, audit/UI only, is omitted). -/
structure AllocationResult where
  allocationPct : ℚ
  allocatedUSDT : ℚ
deriving DecidableEq, Repr

/-- Embedding of `allocateCapitalForOpportunity(opportunity, risk, portfolio)`: risk-banded
allocation percentage, then `allocatedUSDT = min(usdtBalance * pct,
maxTradeAmount)`.  The `opportunity` argument is unused by the source too;
the `try/catch` wrapper is dead for these total inputs. -/
def allocateCapitalForOpportunity (_opportunity : Opportunity)
    (risk : RiskAssessmentResult) (portfolio : Portfolio) : AllocationResult :=
  let riskScore := risk.riskScore
  let allocationPct : ℚ :=
    if riskScore > 80 then 1/50
    else if riskScore ≥ 60 then 1/20
    else if riskScore ≥ 30 then 1/10
    else 3/20
  let potentialAllocation := portfolio.usdtBalance * allocationPct
  let allocatedUSDT := min potentialAllocation portfolio.maxTradeAmount
  ⟨allocationPct, allocatedUSDT⟩

/-! ## Debate engine (src/lib/agents/debateAgent.ts) -/

/-- One agent perspective; the source record also carries a `reasons` string
list that only feeds the UI/audit and is omitted here. -/
structure AgentPerspective where
  score : ℚ
deriving DecidableEq, Repr

/-- Decision of the debate engine. -/
inductive Decision where
  | execute
  | wait
deriving DecidableEq, Repr

/-- The `DebateResult` record of `debateWithMedianConsensus` (the `raw` LLM-text field is
omitted). -/
structure DebateResult where
  bullish : AgentPerspective
  bearish : AgentPerspective
  neutral : AgentPerspective
  finalDecisionScore : ℚ
  decision : Decision
deriving DecidableEq, Repr

/-- Ascending insertion into a sorted list, as JavaScript
`array.sort((a, b) => a - b)` orders numbers. -/
def insertAsc (x : ℚ) : List ℚ → List ℚ
  | [] => [x]
  | y :: ys => if x ≤ y then x :: y :: ys else y :: insertAsc x ys

/-- Ascending numeric sort (`scores.sort((a, b) => a - b)` in the source). -/
def sortAsc (l : List ℚ) : List ℚ := l.foldr insertAsc []

/-- The three raw perspective scores parsed from the provider's JSON reply.
A provider that is unavailable, throws, or returns unparsable JSON is
modelled as `Option.none` at the call site. -/
structure ParsedPerspectives where
  bullish : ℚ
  bearish : ℚ
  neutral : ℚ
deriving DecidableEq, Repr

/-- Embedding of `fallbackDebateResult(o, r, a, t)` — the deterministic local fallback:
`spreadScore = min(1, o.spreadPct / 3)`, `riskPenalty = r.riskScore / 100`,
`bullish = clamp(spreadScore - riskPenalty * 0.3)`, `bearish = clamp(riskPenalty)`,
`neutral = 0.5`, then the median-of-three consensus against the threshold. -/
def fallbackDebateResult (o : Opportunity) (r : RiskAssessmentResult)
    (_a : AllocationResult) (t : ℚ) : DebateResult :=
  let spreadScore := min 1 (o.spreadPct / 3)
  let riskPenalty := r.riskScore / 100
  let bullish : AgentPerspective := ⟨max 0 (min 1 (spreadScore - riskPenalty * (3/10)))⟩
  let bearish : AgentPerspective := ⟨max 0 (min 1 riskPenalty)⟩
  let neutral : AgentPerspective := ⟨1/2⟩
  let scores := sortAsc [bullish.score, 1 - bearish.score, neutral.score]
  let finalDecisionScore := scores.getD 1 0
  { bullish, bearish, neutral, finalDecisionScore,
    decision := if finalDecisionScore ≥ t then .execute else .wait }

/-- Embedding of `debateWithMedianConsensus(opportunity, risk, allocation, threshold)`.
`provider = none` models both "no Groq client configured" and "the API call
or JSON parsing threw", which the source sends to `fallbackDebateResult`;
`provider = some parsed` models a successful call whose parsed scores are
clamped to [0,1] before the median consensus. -/
def debateWithMedianConsensus (provider : Option ParsedPerspectives)
    (o : Opportunity) (r : RiskAssessmentResult) (a : AllocationResult)
    (executeConfidenceThreshold : ℚ := 3/5) : DebateResult :=
  match provider with
  | none => fallbackDebateResult o r a executeConfidenceThreshold
  | some parsed =>
    let bullish : AgentPerspective := ⟨max 0 (min 1 parsed.bullish)⟩
    let bearish : AgentPerspective := ⟨max 0 (min 1 parsed.bearish)⟩
    let neutral : AgentPerspective := ⟨max 0 (min 1 parsed.neutral)⟩
    let scores := sortAsc [bullish.score, 1 - bearish.score, neutral.score]
    let finalDecisionScore := scores.getD 1 0
    { bullish, bearish, neutral, finalDecisionScore,
      decision := if finalDecisionScore ≥ executeConfidenceThreshold then .execute else .wait }

/-- The median of three numbers, written independently of any sorting
routine: the middle value. -/
def median3 (x y z : ℚ) : ℚ := max (min x y) (min (max x y) z)

/-- Clamp to the unit interval. -/
def clamp01 (x : ℚ) : ℚ := max 0 (min 1 x)

/-! ## Guardian (autonomous runner, `guardianCheck`) -/

/-- The portfolio snapshot the Guardian reads (`cash`, `totalValue`). -/
structure GPortfolio where
  cash : ℚ
  totalValue : ℚ
deriving DecidableEq, Repr

/-- An audit-log entry as the Guardian's daily-count query sees it: the
calendar day of its timestamp (`toDateString`, abstracted to a day index)
and its `action` string. -/
structure AuditEntry where
  day : ℤ
  action : String
deriving DecidableEq, Repr

/-- The `GuardianConfig` record (the `vetoconditions.highVolatility` flag; the
`exchangeOutage` flag is never read by `guardianCheck`). -/
structure GuardianConfig where
  maxTradePctOfPortfolio : ℚ
  dailyMaxTrades : ℕ
  globalMaxExposurePct : ℚ
  vetoHighVolatility : Bool
deriving DecidableEq, Repr

/-- The veto reason, as a structured tag carrying the data the source
interpolates into its reason string. -/
inductive GuardianReason where
  | tradeSizeExceeded (tradePct : JNum) (limit : ℚ)
  | dailyLimitReached (limit : ℕ)
  | highVolatility (volatilityPct : ℚ)
  | riskTooHigh (riskScore : ℚ)
deriving DecidableEq, Repr

/-- A non-blocking warning (the source pushes a string with the exposure
percentage). -/
inductive GuardianWarning where
  | highExposure (exposurePct : JNum)
deriving DecidableEq, Repr

/-- The `GuardianResult` record. -/
structure GuardianResult where
  pass : Bool
  reason : Option GuardianReason
  warnings : List GuardianWarning
deriving DecidableEq, Repr

/-- The Guardian's daily-trade-count query: audit entries with action
`execution_completed` timestamped today. -/
def todayExecutionCount (auditLog : List AuditEntry) (today : ℤ) : ℕ :=
  (auditLog.filter (fun e => e.day = today && e.action = "execution_completed")).length

/-- Embedding of `guardianCheck(opportunity, risk, allocation, guardianConfig)`: the five
checks in source order — (1) trade size vs portfolio, (2) daily trade count,
(3) global exposure (warning only), (4) high-volatility veto, (5)
risk-score veto.  The portfolio and audit log, read from the global state in
the source, are passed in explicitly.  Divisions by `portfolio.totalValue`
keep IEEE semantics via `jdivQ`. -/
def guardianCheck (_opportunity : Opportunity) (risk : RiskAssessmentResult)
    (allocation : AllocationResult) (config : GuardianConfig)
    (portfolio : GPortfolio) (auditLog : List AuditEntry) (today : ℤ) : GuardianResult :=
  let warnings : List GuardianWarning := []
  let tradePct := jdivQ allocation.allocatedUSDT portfolio.totalValue
  if jgtNum tradePct config.maxTradePctOfPortfolio then
    ⟨false, some (.tradeSizeExceeded tradePct config.maxTradePctOfPortfolio), warnings⟩
  else if todayExecutionCount auditLog today ≥ config.dailyMaxTrades then
    ⟨false, some (.dailyLimitReached config.dailyMaxTrades), warnings⟩
  else
    let currentExposure := jdivQ (portfolio.totalValue - portfolio.cash) portfolio.totalValue
    let warnings :=
      if jgtNum currentExposure config.globalMaxExposurePct then
        warnings ++ [.highExposure currentExposure]
      else warnings
    if config.vetoHighVolatility && jgtNum (.num risk.volatilityPct) 2 then
      ⟨false, some (.highVolatility risk.volatilityPct), warnings⟩
    else if risk.riskScore > 75 then
      ⟨false, some (.riskTooHigh risk.riskScore), warnings⟩
    else
      ⟨true, none, warnings⟩

/-! ## Execution engine (`executeArbitrageWithPartialFills`) -/

/-- Walk the ask ladder consuming up to `remaining`, returning the
accumulated `(filledQty, totalSellValue)`; the source's
`for (const [price, qty] of orderbook.asks)` loop with its
`if (remainingQty <= 0) break` guard. -/
def walkAsks : List (ℚ × ℚ) → ℚ → ℚ × ℚ
  | [], _ => (0, 0)
  | (price, qty) :: rest, remaining =>
    if remaining ≤ 0 then (0, 0)
    else
      let fillQty := min remaining qty
      let acc := walkAsks rest (remaining - fillQty)
      (fillQty + acc.1, price * fillQty + acc.2)

/-- Total ask-side depth of an order book. -/
def askDepth (asks : List (ℚ × ℚ)) : ℚ := (asks.map Prod.snd).sum

/-- The `ExecuteArbitrageResult` record (the `auditId`/`error` bookkeeping strings are
omitted; the audit actions are returned alongside). -/
structure ExecuteArbitrageResult where
  success : Bool
  buyPrice : ℚ
  buyQty : ℚ
  avgSellPrice : ℚ
  filledQty : ℚ
  netProfit : ℚ
  slippagePct : ℚ
  partialFill : Bool
deriving DecidableEq, Repr

/-- Embedding of `executeArbitrageWithPartialFills(opportunity, allocatedUSDT)` on its
happy path (no thrown error): compute `buyQty`, simulate the buy leg with
the drawn `buySlippage` premium, walk the fetched ask ladder for the sell
leg, flag partial fills, trigger the rollback audit event when the fill
ratio is below 90 %, and settle the profit figures.  The fetched order book
`asks` and the random slippage draw are passed in explicitly.  The returned
string list is the sequence of audit-log `action`s the call appends.
`fillRatio = filledQty / buyQty` keeps IEEE semantics via `jdivQ`
(`buyQty` can be 0 when nothing was allocated). -/
def executeArbitrageWithPartialFills (opportunity : Opportunity)
    (allocatedUSDT : ℚ) (asks : List (ℚ × ℚ)) (buySlippage : ℚ) :
    ExecuteArbitrageResult × List String :=
  let binancePrice := opportunity.binancePrice
  let buyQty := allocatedUSDT / binancePrice
  let audit₁ := ["buy_order_placed"]
  let buyPrice := binancePrice * (1 + buySlippage)
  let buyFees := buyPrice * buyQty * (1/1000)
  let walked := walkAsks asks buyQty
  let filledQty := walked.1
  let totalSellValue := walked.2
  let avgSellPrice := if filledQty > 0 then totalSellValue / filledQty else 0
  let fillRatio := jdivQ filledQty buyQty
  let partialFill := jltNum fillRatio 1
  let audit₂ := audit₁ ++ ["sell_simulated"]
  let audit₃ := if jltNum fillRatio (9/10) then audit₂ ++ ["rollback_triggered"] else audit₂
  let buyCost := buyPrice * buyQty + buyFees
  let sellRevenue := avgSellPrice * filledQty
  let sellFees := sellRevenue * (2/1000)
  let netProfit := sellRevenue - sellFees - buyCost
  let slippagePct := (avgSellPrice - opportunity.indianPrice) / opportunity.indianPrice * 100
  let audit₄ := audit₃ ++ ["execution_completed"]
  (⟨true, buyPrice, buyQty, avgSellPrice, filledQty, netProfit, |slippagePct|, partialFill⟩,
    audit₄)

/-! ## Concrete sample inputs for witnesses -/

/-- A sample confirmed opportunity. -/
def opp₀ : Opportunity :=
  { id := "opp_BTCUSDT", symbol := "BTCUSDT", spreadPct := 3/2,
    action := "buy-binance-sell-india", estimatedGrossProfitPct := 6/5,
    binancePrice := 50000, indianPrice := 50750,
    firstSeenTs := 0, lastSeenTs := 4000, persistenceCount := 3 }

/-- A sample liquidity estimate. -/
def liq₀ : LiquidityEstimate := { fillableQty := 10, expectedAvgPrice := 50750 }

/-- A sample medium-risk assessment. -/
def risk₀ : RiskAssessmentResult :=
  { riskScore := 50, slippagePct := 0, volatilityPct := 1/2, liquidityEstimate := liq₀ }

/-- A sample allocation. -/
def alloc₀ : AllocationResult := { allocationPct := 1/10, allocatedUSDT := 500 }

/-- A sample Guardian configuration (the defaults of the global state). -/
def config₀ : GuardianConfig :=
  { maxTradePctOfPortfolio := 3/20, dailyMaxTrades := 10,
    globalMaxExposurePct := 1/2, vetoHighVolatility := true }

/-- A sample discovered price pair with a 1.5 % spread. -/
def price₀ : DiscoveredPrice := ⟨"BTCUSDT", 50000, 50750⟩

/-- Detector options with `minPersistenceCount = 1` (emit on first sight). -/
def opts₁ : DetectOpts := ⟨1/2, 2000, 1⟩

/-- A sample buffer entry last seen at time 0. -/
def entry₁ : OpportunityPersistence :=
  { opportunityKey := "BTCUSDT_buy-binance-sell-india", firstSeenTs := 0,
    lastSeenTs := 0, persistenceCount := 3, data := opp₀ }

/-- A sample one-entry persistence buffer. -/
def buf₁ : Buffer :=
  fun k => if k = "BTCUSDT_buy-binance-sell-india" then some entry₁ else none

/-! ## Theorems -/

/-- Sorting a three-element list ascending and taking index 1 yields the
median of the three values. -/
theorem sortAsc_getD_one_eq_median3 (x y z : ℚ) :
    (sortAsc [x, y, z]).getD 1 0 = median3 x y z := by
  simp only [sortAsc, List.foldr, insertAsc, median3, min_def, max_def]
  split_ifs <;>
    simp only [insertAsc] <;>
    split_ifs <;>
    simp_all [List.getD] <;>
    linarith

/-- Applying `jgtNum` to a finite number is the rational comparison. -/
theorem jgtNum_num (a q : ℚ) : jgtNum (.num a) q = decide (a > q) := rfl

/-- The decision construction is the threshold test. -/
theorem ifDecision_eq_execute_iff (s t : ℚ) :
    ((if s ≥ t then Decision.execute else Decision.wait) = Decision.execute) ↔ s ≥ t := by
  split_ifs with h <;> simp [h]

/-- C1: for every triple of perspective scores — whether obtained from the
provider (and clamped) or from the deterministic fallback —
`debateWithMedianConsensus` computes `finalDecisionScore` as the median of
`[bullish.score, 1 - bearish.score, neutral.score]` (sort the triple
ascending, take index 1), and the decision is `execute` iff
`finalDecisionScore ≥ executeConfidenceThreshold` (default 0.6), else
`wait`. -/
theorem debate_median_consensus (provider : Option ParsedPerspectives)
    (o : Opportunity) (r : RiskAssessmentResult) (a : AllocationResult) (t : ℚ) :
    (debateWithMedianConsensus provider o r a t).finalDecisionScore =
      median3 (debateWithMedianConsensus provider o r a t).bullish.score
        (1 - (debateWithMedianConsensus provider o r a t).bearish.score)
        ((debateWithMedianConsensus provider o r a t).neutral.score) ∧
    ((debateWithMedianConsensus provider o r a t).decision = .execute ↔
      (debateWithMedianConsensus provider o r a t).finalDecisionScore ≥ t) := by
  cases provider with
  | none => exact ⟨sortAsc_getD_one_eq_median3 _ _ _, ifDecision_eq_execute_iff _ _⟩
  | some parsed => exact ⟨sortAsc_getD_one_eq_median3 _ _ _, ifDecision_eq_execute_iff _ _⟩

/-- C9: when the perspective provider is unavailable or its call fails
(`provider = none`), the debate result is the deterministic fallback, whose
scores are computed purely from the risk and spread numbers:
`bullish = clamp(spreadScore - 0.3 * riskPenalty)` with
`spreadScore = min(1, spreadPct / 3)` and `riskPenalty = riskScore / 100`,
`bearish = clamp(riskPenalty)`, and `neutral = 0.5`. -/
theorem debate_fallback_formula (o : Opportunity) (r : RiskAssessmentResult)
    (a : AllocationResult) (t : ℚ) :
    debateWithMedianConsensus none o r a t = fallbackDebateResult o r a t ∧
    (fallbackDebateResult o r a t).bullish.score =
      clamp01 (min 1 (o.spreadPct / 3) - (3/10) * (r.riskScore / 100)) ∧
    (fallbackDebateResult o r a t).bearish.score = clamp01 (r.riskScore / 100) ∧
    (fallbackDebateResult o r a t).neutral.score = 1/2 := by
  refine ⟨rfl, ?_, rfl, rfl⟩
  show max 0 (min 1 (min 1 (o.spreadPct / 3) - r.riskScore / 100 * (3/10))) = _
  rw [clamp01, mul_comm ((3:ℚ)/10) (r.riskScore / 100)]

/-- Unfolding equation for the allocator. -/
theorem allocateCapitalForOpportunity_eq (o : Opportunity)
    (r : RiskAssessmentResult) (p : Portfolio) :
    allocateCapitalForOpportunity o r p =
      ⟨if r.riskScore > 80 then 1/50
        else if r.riskScore ≥ 60 then 1/20
        else if r.riskScore ≥ 30 then 1/10
        else 3/20,
        min (p.usdtBalance *
          (if r.riskScore > 80 then 1/50
            else if r.riskScore ≥ 60 then 1/20
            else if r.riskScore ≥ 30 then 1/10
            else 3/20)) p.maxTradeAmount⟩ := rfl

/-- C2 counterexample: with a negative balance (−100 USDT, risk score 50,
max trade amount 5000) the allocator returns `allocatedUSDT = −10`, which is
neither `≤ usdtBalance` nor `0` — the claimed bound and the zero-or-negative
clause both fail on a negative balance. -/
theorem allocate_negative_balance_counterexample :
    (allocateCapitalForOpportunity opp₀ risk₀ ⟨-100, 5000⟩).allocatedUSDT = -10 ∧
    ¬ ((allocateCapitalForOpportunity opp₀ risk₀ ⟨-100, 5000⟩).allocatedUSDT ≤
          (⟨-100, 5000⟩ : Portfolio).usdtBalance ∧
        (allocateCapitalForOpportunity opp₀ risk₀ ⟨-100, 5000⟩).allocatedUSDT = 0) := by
  simp only [allocateCapitalForOpportunity_eq, risk₀]
  norm_num [min_def]

/-- C2 (amended): for every opportunity, risk result, and portfolio with
nonnegative balance, `allocateCapitalForOpportunity` returns
`allocatedUSDT ≤ portfolio.usdtBalance` and
`allocatedUSDT ≤ portfolio.maxTradeAmount`; and for a portfolio whose
balance is zero (with a nonnegative max trade amount) it returns
`allocatedUSDT = 0`. -/
theorem allocate_capital_bounds (opportunity : Opportunity)
    (risk : RiskAssessmentResult) (portfolio : Portfolio)
    (hb : 0 ≤ portfolio.usdtBalance) :
    ((allocateCapitalForOpportunity opportunity risk portfolio).allocatedUSDT ≤
        portfolio.usdtBalance ∧
      (allocateCapitalForOpportunity opportunity risk portfolio).allocatedUSDT ≤
        portfolio.maxTradeAmount) ∧
    (portfolio.usdtBalance = 0 → 0 ≤ portfolio.maxTradeAmount →
      (allocateCapitalForOpportunity opportunity risk portfolio).allocatedUSDT = 0) := by
  unfold allocateCapitalForOpportunity
  dsimp only
  split_ifs <;>
    exact ⟨⟨le_trans (min_le_left _ _) (by nlinarith), min_le_right _ _⟩,
      fun hz hm => by rw [hz, zero_mul, min_eq_left hm]⟩

/-- Witness for C2 (amended): a zero-balance portfolio allocates exactly 0. -/
theorem allocate_capital_bounds_witness :
    (allocateCapitalForOpportunity opp₀ risk₀ ⟨0, 5000⟩).allocatedUSDT = 0 :=
  (allocate_capital_bounds opp₀ risk₀ ⟨0, 5000⟩ (by norm_num)).2 rfl (by norm_num)

/-- Unfolding equation for the risk score. -/
theorem assessRiskCore_riskScore (spreadPct volatilityPct : ℚ)
    (liq : LiquidityEstimate) (targetQuantity indianPrice : ℚ) :
    (assessRiskCore spreadPct volatilityPct liq targetQuantity indianPrice).riskScore =
      max 0 (min 100 (slipAdjusted (assessSlippagePct liq indianPrice)
        (fillAdjusted (jdivQ liq.fillableQty targetQuantity)
          (volAdjusted volatilityPct (spreadBase spreadPct))))) := rfl

/-- The volatility penalty is monotone in the volatility. -/
theorem volAdjusted_mono {v₁ v₂ : ℚ} (c : ℚ) (h : v₁ ≤ v₂) :
    volAdjusted v₁ c ≤ volAdjusted v₂ c := by
  unfold volAdjusted
  split_ifs <;> linarith

/-- The fill-ratio adjustment is monotone in the running score. -/
theorem fillAdjusted_mono (fr : JNum) {x y : ℚ} (h : x ≤ y) :
    fillAdjusted fr x ≤ fillAdjusted fr y := by
  unfold fillAdjusted
  split_ifs <;> linarith

/-- The slippage penalty is monotone in the running score. -/
theorem slipAdjusted_mono (s : ℚ) {x y : ℚ} (h : x ≤ y) :
    slipAdjusted s x ≤ slipAdjusted s y := by
  unfold slipAdjusted
  split_ifs <;> linarith

/-- C7: the risk score is monotonically non-decreasing in the derived
volatility: two assessments identical except for a larger `volatilityPct`
never produce a smaller `riskScore` (the clamp to [0, 100] preserves
monotonicity). -/
theorem assessRisk_monotone_in_volatility (spreadPct : ℚ) (liq : LiquidityEstimate)
    (targetQuantity indianPrice : ℚ) (v₁ v₂ : ℚ) (h : v₁ ≤ v₂) :
    (assessRiskCore spreadPct v₁ liq targetQuantity indianPrice).riskScore ≤
      (assessRiskCore spreadPct v₂ liq targetQuantity indianPrice).riskScore := by
  rw [assessRiskCore_riskScore, assessRiskCore_riskScore]
  exact max_le_max le_rfl (min_le_min le_rfl
    (slipAdjusted_mono _ (fillAdjusted_mono _ (volAdjusted_mono _ h))))

/-- Witness for C7: raising volatility from 0 to 2 at fixed other factors
does not lower the risk score. -/
theorem assessRisk_monotone_witness :
    (assessRiskCore (3/2) 0 liq₀ 1 50750).riskScore ≤
      (assessRiskCore (3/2) 2 liq₀ 1 50750).riskScore :=
  assessRisk_monotone_in_volatility (3/2) liq₀ 1 50750 0 2 (by norm_num)

/-- C3: `guardianCheck` evaluates its five checks in source order and
short-circuits with the specific reason of the first failing hard limit:
a trade-size breach always vetoes with the trade percentage in the reason;
otherwise a reached daily limit vetoes; otherwise an enabled volatility veto
with `volatilityPct > 2.0` vetoes; otherwise `riskScore > 75` vetoes;
otherwise the check passes — exceeding `globalMaxExposurePct` only appends a
warning (present in the returned warnings exactly when the exposure exceeds
the limit once checks 1–2 passed) and never by itself causes `pass = false`. -/
theorem guardian_check_order (o : Opportunity) (risk : RiskAssessmentResult)
    (allocation : AllocationResult) (config : GuardianConfig)
    (portfolio : GPortfolio) (auditLog : List AuditEntry) (today : ℤ) :
    (jgtNum (jdivQ allocation.allocatedUSDT portfolio.totalValue)
        config.maxTradePctOfPortfolio = true →
      guardianCheck o risk allocation config portfolio auditLog today =
        ⟨false, some (.tradeSizeExceeded
          (jdivQ allocation.allocatedUSDT portfolio.totalValue)
          config.maxTradePctOfPortfolio), []⟩) ∧
    (jgtNum (jdivQ allocation.allocatedUSDT portfolio.totalValue)
        config.maxTradePctOfPortfolio = false →
      todayExecutionCount auditLog today ≥ config.dailyMaxTrades →
      guardianCheck o risk allocation config portfolio auditLog today =
        ⟨false, some (.dailyLimitReached config.dailyMaxTrades), []⟩) ∧
    (jgtNum (jdivQ allocation.allocatedUSDT portfolio.totalValue)
        config.maxTradePctOfPortfolio = false →
      todayExecutionCount auditLog today < config.dailyMaxTrades →
      config.vetoHighVolatility = true →
      risk.volatilityPct > 2 →
      guardianCheck o risk allocation config portfolio auditLog today =
        ⟨false, some (.highVolatility risk.volatilityPct),
          if jgtNum (jdivQ (portfolio.totalValue - portfolio.cash) portfolio.totalValue)
              config.globalMaxExposurePct then
            [.highExposure (jdivQ (portfolio.totalValue - portfolio.cash) portfolio.totalValue)]
          else []⟩) ∧
    (jgtNum (jdivQ allocation.allocatedUSDT portfolio.totalValue)
        config.maxTradePctOfPortfolio = false →
      todayExecutionCount auditLog today < config.dailyMaxTrades →
      (config.vetoHighVolatility = false ∨ risk.volatilityPct ≤ 2) →
      risk.riskScore > 75 →
      guardianCheck o risk allocation config portfolio auditLog today =
        ⟨false, some (.riskTooHigh risk.riskScore),
          if jgtNum (jdivQ (portfolio.totalValue - portfolio.cash) portfolio.totalValue)
              config.globalMaxExposurePct then
            [.highExposure (jdivQ (portfolio.totalValue - portfolio.cash) portfolio.totalValue)]
          else []⟩) ∧
    (jgtNum (jdivQ allocation.allocatedUSDT portfolio.totalValue)
        config.maxTradePctOfPortfolio = false →
      todayExecutionCount auditLog today < config.dailyMaxTrades →
      (config.vetoHighVolatility = false ∨ risk.volatilityPct ≤ 2) →
      risk.riskScore ≤ 75 →
      guardianCheck o risk allocation config portfolio auditLog today =
        ⟨true, none,
          if jgtNum (jdivQ (portfolio.totalValue - portfolio.cash) portfolio.totalValue)
              config.globalMaxExposurePct then
            [.highExposure (jdivQ (portfolio.totalValue - portfolio.cash) portfolio.totalValue)]
          else []⟩) := by
  refine ⟨fun h1 => ?_, fun h1 h2 => ?_, fun h1 h2 h3 h4 => ?_,
    fun h1 h2 h3 h4 => ?_, fun h1 h2 h3 h4 => ?_⟩
  · unfold guardianCheck
    simp [h1]
  · unfold guardianCheck
    simp [h1, h2]
  · unfold guardianCheck
    simp [h1, not_le.mpr h2, h3, jgtNum_num, h4]
  · rcases h3 with h3 | h3
    · unfold guardianCheck
      simp [h1, not_le.mpr h2, h3, h4]
    · unfold guardianCheck
      simp [h1, not_le.mpr h2, jgtNum_num, not_lt.mpr h3, h4]
  · rcases h3 with h3 | h3
    · unfold guardianCheck
      simp [h1, not_le.mpr h2, h3, not_lt.mpr h4]
    · unfold guardianCheck
      simp [h1, not_le.mpr h2, jgtNum_num, not_lt.mpr h3, not_lt.mpr h4]

/-- Witness for C3: a trade of 500 against a 1000-value portfolio (50 %)
breaches the 15 % limit and is vetoed with the trade-size reason. -/
theorem guardian_check_order_witness :
    guardianCheck opp₀ risk₀ alloc₀ config₀ ⟨800, 1000⟩ [] 0 =
      ⟨false, some (.tradeSizeExceeded (jdivQ 500 1000) (3/20)), []⟩ :=
  (guardian_check_order opp₀ risk₀ alloc₀ config₀ ⟨800, 1000⟩ [] 0).1
    (by norm_num [jdivQ, jgtNum, alloc₀, config₀])

/-- C10: the Guardian's trade-size division is unguarded against a
zero-value portfolio.  `guardianCheck` is a total function (it cannot
throw); with `totalValue = 0` and `allocatedUSDT > 0` the ratio is `+∞` and
the trade-size check vetoes, but with `allocatedUSDT = 0` the ratio is `NaN`,
the comparison against `maxTradePctOfPortfolio` is false, and the trade-size
check passes — the overall check returns `pass = true` whenever the later
hard limits are also satisfied. -/
theorem guardian_zero_portfolio_nan (o : Opportunity) (risk : RiskAssessmentResult)
    (allocation : AllocationResult) (config : GuardianConfig)
    (cash : ℚ) (auditLog : List AuditEntry) (today : ℤ) :
    (allocation.allocatedUSDT > 0 →
      jdivQ allocation.allocatedUSDT 0 = .posInf ∧
      (guardianCheck o risk allocation config ⟨cash, 0⟩ auditLog today).pass = false ∧
      (guardianCheck o risk allocation config ⟨cash, 0⟩ auditLog today).reason =
        some (.tradeSizeExceeded .posInf config.maxTradePctOfPortfolio)) ∧
    (allocation.allocatedUSDT = 0 →
      jdivQ allocation.allocatedUSDT 0 = .nan ∧
      jgtNum .nan config.maxTradePctOfPortfolio = false ∧
      (todayExecutionCount auditLog today < config.dailyMaxTrades →
        (config.vetoHighVolatility = false ∨ risk.volatilityPct ≤ 2) →
        risk.riskScore ≤ 75 →
        (guardianCheck o risk allocation config ⟨cash, 0⟩ auditLog today).pass = true)) := by
  constructor
  · intro hpos
    have hdiv : jdivQ allocation.allocatedUSDT 0 = .posInf := by
      simp [jdivQ, hpos]
    refine ⟨hdiv, ?_, ?_⟩ <;>
      · unfold guardianCheck
        simp [hdiv, jgtNum]
  · intro hzero
    have hdiv : jdivQ allocation.allocatedUSDT 0 = .nan := by
      simp [jdivQ, hzero]
    refine ⟨hdiv, rfl, fun h2 h3 h4 => ?_⟩
    rcases h3 with h3 | h3
    · unfold guardianCheck
      simp [hdiv, jgtNum, not_le.mpr h2, h3, not_lt.mpr h4]
    · unfold guardianCheck
      simp [hdiv, jgtNum, jgtNum_num, not_le.mpr h2, not_lt.mpr h3, not_lt.mpr h4]

/-- Witness for C10: zero allocation against a zero-value portfolio slips
through the trade-size check and, with benign later checks, passes. -/
theorem guardian_zero_portfolio_nan_witness :
    (guardianCheck opp₀ risk₀ ⟨0, 0⟩ config₀ ⟨1000, 0⟩ [] 0).pass = true :=
  ((guardian_zero_portfolio_nan opp₀ risk₀ ⟨0, 0⟩ config₀ 1000 [] 0).2 rfl).2.2
    (by simp [todayExecutionCount, config₀])
    (Or.inr (by norm_num [risk₀]))
    (by norm_num [risk₀])

/-- The ask-side depth of a ladder with nonnegative level quantities is
nonnegative. -/
theorem askDepth_nonneg (asks : List (ℚ × ℚ)) (h : ∀ l ∈ asks, 0 ≤ l.2) :
    0 ≤ askDepth asks := by
  induction asks with
  | nil => simp [askDepth]
  | cons a t ih =>
    have ha := h a (List.mem_cons_self a t)
    have ht := ih fun l hl => h l (List.mem_cons_of_mem a hl)
    simp only [askDepth, List.map_cons, List.sum_cons] at *
    linarith

/-- The fill walk never fills more than the total ask depth. -/
theorem walkAsks_fst_le_depth (asks : List (ℚ × ℚ)) (r : ℚ)
    (h : ∀ l ∈ asks, 0 ≤ l.2) : (walkAsks asks r).1 ≤ askDepth asks := by
  induction asks generalizing r with
  | nil => simp [walkAsks, askDepth]
  | cons a t ih =>
    obtain ⟨price, qty⟩ := a
    have hq : (0:ℚ) ≤ qty := h (price, qty) (List.mem_cons_self _ t)
    have ht : ∀ l ∈ t, (0:ℚ) ≤ l.2 := fun l hl => h l (List.mem_cons_of_mem _ hl)
    simp only [walkAsks, askDepth, List.map_cons, List.sum_cons]
    split_ifs with hr
    · have := askDepth_nonneg t ht
      simp only [askDepth] at this
      simpa using by linarith
    · have h1 : min r qty ≤ qty := min_le_right _ _
      have h2 := ih (r - min r qty) ht
      simp only [askDepth] at h2
      simpa using by linarith

/-- Unfolding equation: the filled quantity of
`executeArbitrageWithPartialFills` is the fill walk over the fetched asks up
to `buyQty = allocatedUSDT / binancePrice`. -/
theorem execute_filledQty_eq (o : Opportunity) (a : ℚ) (asks : List (ℚ × ℚ)) (s : ℚ) :
    (executeArbitrageWithPartialFills o a asks s).1.filledQty =
      (walkAsks asks (a / o.binancePrice)).1 := rfl

/-- Unfolding equation: the partial-fill flag is `fillRatio < 1.0`. -/
theorem execute_partialFill_eq (o : Opportunity) (a : ℚ) (asks : List (ℚ × ℚ)) (s : ℚ) :
    (executeArbitrageWithPartialFills o a asks s).1.partialFill =
      jltNum (jdivQ (walkAsks asks (a / o.binancePrice)).1 (a / o.binancePrice)) 1 := rfl

/-- Unfolding equation: the audit actions appended by
`executeArbitrageWithPartialFills`, with `rollback_triggered` present exactly
on the sub-90 % fill-ratio branch. -/
theorem execute_audit_eq (o : Opportunity) (a : ℚ) (asks : List (ℚ × ℚ)) (s : ℚ) :
    (executeArbitrageWithPartialFills o a asks s).2 =
      (if jltNum (jdivQ (walkAsks asks (a / o.binancePrice)).1 (a / o.binancePrice)) (9/10) then
        ["buy_order_placed"] ++ ["sell_simulated"] ++ ["rollback_triggered"]
      else ["buy_order_placed"] ++ ["sell_simulated"]) ++ ["execution_completed"] := rfl

/-- C4: in `executeArbitrageWithPartialFills`, if the total ask-side depth of
the fetched order book is less than `buyQty` then `filledQty < buyQty` and
the returned `partialFill` is true; in general `partialFill` equals
`fillRatio < 1.0`, and a `rollback_triggered` audit event is emitted exactly
when `fillRatio = filledQty / buyQty < 0.9`. -/
theorem execute_partial_fill_rollback (o : Opportunity) (allocatedUSDT : ℚ)
    (asks : List (ℚ × ℚ)) (buySlippage : ℚ) (hq : ∀ l ∈ asks, 0 ≤ l.2) :
    (askDepth asks < allocatedUSDT / o.binancePrice →
      (executeArbitrageWithPartialFills o allocatedUSDT asks buySlippage).1.filledQty <
          allocatedUSDT / o.binancePrice ∧
        (executeArbitrageWithPartialFills o allocatedUSDT asks buySlippage).1.partialFill = true) ∧
    (executeArbitrageWithPartialFills o allocatedUSDT asks buySlippage).1.partialFill =
      jltNum (jdivQ
        (executeArbitrageWithPartialFills o allocatedUSDT asks buySlippage).1.filledQty
        (allocatedUSDT / o.binancePrice)) 1 ∧
    ("rollback_triggered" ∈ (executeArbitrageWithPartialFills o allocatedUSDT asks buySlippage).2 ↔
      jltNum (jdivQ
        (executeArbitrageWithPartialFills o allocatedUSDT asks buySlippage).1.filledQty
        (allocatedUSDT / o.binancePrice)) (9/10) = true) := by
  refine ⟨fun hdepth => ?_, rfl, ?_⟩
  · have hfil : (walkAsks asks (allocatedUSDT / o.binancePrice)).1 ≤ askDepth asks :=
      walkAsks_fst_le_depth asks _ hq
    have hlt : (walkAsks asks (allocatedUSDT / o.binancePrice)).1 <
        allocatedUSDT / o.binancePrice := lt_of_le_of_lt hfil hdepth
    have hpos : 0 < allocatedUSDT / o.binancePrice :=
      lt_of_le_of_lt (askDepth_nonneg asks hq) hdepth
    refine ⟨hlt, ?_⟩
    rw [execute_partialFill_eq, jdivQ, if_pos (ne_of_gt hpos)]
    simpa [jltNum] using (div_lt_one hpos).mpr hlt
  · rw [execute_audit_eq, execute_filledQty_eq]
    split_ifs with h <;> simp [h]

/-- Witness for C4: buying 0.01 BTC against an ask ladder holding only
0.001 BTC under-fills (fill ratio 10 %), sets the partial-fill flag and
emits the rollback event. -/
theorem execute_partial_fill_rollback_witness :
    ((executeArbitrageWithPartialFills opp₀ 500 [(50750, 1/1000)] 0).1.filledQty <
        500 / opp₀.binancePrice ∧
      (executeArbitrageWithPartialFills opp₀ 500 [(50750, 1/1000)] 0).1.partialFill = true) ∧
    "rollback_triggered" ∈ (executeArbitrageWithPartialFills opp₀ 500 [(50750, 1/1000)] 0).2 := by
  have h := execute_partial_fill_rollback opp₀ 500 [(50750, 1/1000)] 0
    (by intro l hl; simp at hl; rw [hl]; norm_num)
  refine ⟨h.1 (by norm_num [askDepth, opp₀]), ?_⟩
  refine h.2.2.mpr ?_
  rw [execute_filledQty_eq]
  norm_num [walkAsks, opp₀, jdivQ, jltNum, min_def]

/-- Unfolding equation: the buffer after processing a qualifying price. -/
theorem processQualified_buffer_apply (opts : DetectOpts) (t : ℤ) (st : DetectState)
    (p : DiscoveredPrice) (s : ℚ) (k : String) :
    (processQualified opts t st p s).buffer k =
      if k = qualifiedKey p s then some (entryFor st.buffer (qualifiedKey p s) t p s)
      else st.buffer k := rfl

/-- Unfolding equation: the seen keys after processing a qualifying price. -/
theorem processQualified_seenKeys (opts : DetectOpts) (t : ℤ) (st : DetectState)
    (p : DiscoveredPrice) (s : ℚ) :
    (processQualified opts t st p s).seenKeys = st.seenKeys ++ [qualifiedKey p s] := rfl

/-- Unfolding equation: the emitted list after processing a qualifying price. -/
theorem processQualified_opps (opts : DetectOpts) (t : ℤ) (st : DetectState)
    (p : DiscoveredPrice) (s : ℚ) :
    (processQualified opts t st p s).opportunities =
      if (entryFor st.buffer (qualifiedKey p s) t p s).persistenceCount ≥
            opts.minPersistenceCount ∨
          t - (entryFor st.buffer (qualifiedKey p s) t p s).firstSeenTs ≥
            opts.persistenceMs then
        st.opportunities ++ [(entryFor st.buffer (qualifiedKey p s) t p s).data]
      else st.opportunities := rfl

/-- Unfolding equation: the emitted component of `detectArbitrage`. -/
theorem detectArbitrage_fst (prices : List DiscoveredPrice) (opts : DetectOpts)
    (t : ℤ) (buf : Buffer) :
    (detectArbitrage prices opts t buf).1 =
      sortByProfitDesc (detectLoop prices opts t buf).opportunities := rfl

/-- Unfolding equation: the buffer component of `detectArbitrage`. -/
theorem detectArbitrage_snd (prices : List DiscoveredPrice) (opts : DetectOpts)
    (t : ℤ) (buf : Buffer) :
    (detectArbitrage prices opts t buf).2 =
      gcBuffer (detectLoop prices opts t buf).buffer
        (detectLoop prices opts t buf).seenKeys t := rfl

/-- A poll step either skips a price or processes it as qualifying. -/
theorem processPrice_eq_self_or_qualified (opts : DetectOpts) (t : ℤ)
    (st : DetectState) (p : DiscoveredPrice) :
    processPrice opts t st p = st ∨
    processPrice opts t st p = processQualified opts t st p (spreadOf p) := by
  unfold processPrice
  split_ifs
  · exact Or.inl rfl
  · exact Or.inl rfl
  · exact Or.inr rfl

/-- Every member of an insertion is the inserted element or an old member. -/
theorem mem_insertByProfit (x y : Opportunity) (l : List Opportunity) :
    y ∈ insertByProfit x l ↔ y = x ∨ y ∈ l := by
  induction l with
  | nil => simp [insertByProfit]
  | cons a t ih =>
    unfold insertByProfit
    split_ifs
    · simp
    · simp [ih]
      tauto

/-- The profit sort preserves membership. -/
theorem mem_sortByProfitDesc (y : Opportunity) (l : List Opportunity) :
    y ∈ sortByProfitDesc l ↔ y ∈ l := by
  induction l with
  | nil => simp [sortByProfitDesc]
  | cons a t ih =>
    show y ∈ insertByProfit a (sortByProfitDesc t) ↔ _
    rw [mem_insertByProfit, ih]
    simp

/-- Processing a qualifying price preserves buffer well-formedness and the
persistence criterion of every emitted opportunity. -/
theorem processQualified_invariant (opts : DetectOpts) (t : ℤ) (st : DetectState)
    (p : DiscoveredPrice) (s : ℚ) (hwf : BufferWF st.buffer)
    (hgood : ∀ o ∈ st.opportunities, OppGood opts o) :
    BufferWF (processQualified opts t st p s).buffer ∧
    ∀ o ∈ (processQualified opts t st p s).opportunities, OppGood opts o := by
  constructor
  · intro k q hq
    rw [processQualified_buffer_apply] at hq
    by_cases hk : k = qualifiedKey p s
    · rw [if_pos hk] at hq
      injection hq with hq
      subst hq
      rcases hm : st.buffer (qualifiedKey p s) with _ | prev
      · unfold entryFor
        rw [hm]
        rfl
      · unfold entryFor
        rw [hm]
        have h := hwf _ prev hm
        show (updatedEntry t p s prev).data.firstSeenTs = (updatedEntry t p s prev).firstSeenTs
        simpa only [updatedEntry] using h
    · rw [if_neg hk] at hq
      exact hwf k q hq
  · intro o ho
    rw [processQualified_opps] at ho
    split_ifs at ho with hc
    · rcases List.mem_append.mp ho with ho | ho
      · exact hgood o ho
      · rw [List.mem_singleton] at ho
        subst ho
        rcases hm : st.buffer (qualifiedKey p s) with _ | prev
        · unfold entryFor at hc ⊢
          rw [hm] at hc ⊢
          unfold OppGood
          simp only [freshEntry] at hc ⊢
          tauto
        · unfold entryFor at hc ⊢
          rw [hm] at hc ⊢
          have h := hwf _ prev hm
          unfold OppGood
          simp only [updatedEntry] at hc ⊢
          rw [h]
          tauto
    · exact hgood o ho

/-- A poll step preserves buffer well-formedness and emitted-opportunity
goodness. -/
theorem processPrice_invariant (opts : DetectOpts) (t : ℤ) (st : DetectState)
    (p : DiscoveredPrice) (hwf : BufferWF st.buffer)
    (hgood : ∀ o ∈ st.opportunities, OppGood opts o) :
    BufferWF (processPrice opts t st p).buffer ∧
    ∀ o ∈ (processPrice opts t st p).opportunities, OppGood opts o := by
  rcases processPrice_eq_self_or_qualified opts t st p with h | h
  · rw [h]; exact ⟨hwf, hgood⟩
  · rw [h]; exact processQualified_invariant opts t st p (spreadOf p) hwf hgood

/-- The whole poll loop preserves the invariant. -/
theorem detectLoop_invariant (prices : List DiscoveredPrice) (opts : DetectOpts)
    (t : ℤ) (st : DetectState) (hwf : BufferWF st.buffer)
    (hgood : ∀ o ∈ st.opportunities, OppGood opts o) :
    BufferWF (prices.foldl (processPrice opts t) st).buffer ∧
    ∀ o ∈ (prices.foldl (processPrice opts t) st).opportunities, OppGood opts o := by
  induction prices generalizing st with
  | nil => exact ⟨hwf, hgood⟩
  | cons p ps ih =>
    rw [List.foldl_cons]
    have h := processPrice_invariant opts t st p hwf hgood
    exact ih _ h.1 h.2

/-- C5: every opportunity in the list returned by `detectArbitrage` (over a
well-formed buffer, as the detector's own buffer always is) satisfies
`lastSeenTs - firstSeenTs ≥ persistenceMs` or
`persistenceCount ≥ minPersistenceCount`; an entry that meets neither
criterion at the current poll is not emitted. -/
theorem detect_emitted_persistence (prices : List DiscoveredPrice)
    (opts : DetectOpts) (t : ℤ) (buf : Buffer) (hwf : BufferWF buf) :
    ∀ o ∈ (detectArbitrage prices opts t buf).1, OppGood opts o := by
  intro o ho
  rw [detectArbitrage_fst, mem_sortByProfitDesc] at ho
  exact (detectLoop_invariant prices opts t ⟨buf, [], []⟩ hwf (by simp)).2 o ho

/-- Buffer well-formedness is an invariant of `detectArbitrage` itself: it
holds for the initial empty buffer and is preserved by every poll, so the
hypothesis of the previous theorem holds for every buffer the detector can
ever hold. -/
theorem detectArbitrage_preserves_wf (prices : List DiscoveredPrice)
    (opts : DetectOpts) (t : ℤ) (buf : Buffer) (hwf : BufferWF buf) :
    BufferWF (detectArbitrage prices opts t buf).2 := by
  rw [detectArbitrage_snd]
  have hloop : BufferWF (detectLoop prices opts t buf).buffer :=
    (detectLoop_invariant prices opts t ⟨buf, [], []⟩ hwf (by simp)).1
  intro k p hp
  rcases hm : (detectLoop prices opts t buf).buffer k with _ | q
  · simp only [gcBuffer, hm] at hp
    exact Option.noConfusion hp
  · simp only [gcBuffer, hm] at hp
    split_ifs at hp
    all_goals first
      | exact Option.noConfusion hp
      | (injection hp with hpq; exact hpq ▸ hloop k q hm)

/-- Witness for C5: the opportunity emitted for a fresh 1.5 % spread at
`minPersistenceCount = 1` satisfies the persistence criterion. -/
theorem detect_emitted_persistence_witness :
    OppGood opts₁
      (freshEntry (qualifiedKey price₀ (spreadOf price₀)) 5000 price₀
        (spreadOf price₀)).data := by
  have hs : spreadOf price₀ = 3/2 := by norm_num [spreadOf, price₀]
  have habs : |spreadOf price₀| = 3/2 := by
    rw [hs]
    exact abs_of_pos (by norm_num)
  have h1 : processPrice opts₁ 5000 ⟨emptyBuffer, [], []⟩ price₀ =
      processQualified opts₁ 5000 ⟨emptyBuffer, [], []⟩ price₀ (spreadOf price₀) := by
    unfold processPrice
    rw [if_neg (by norm_num [price₀]), if_neg (by rw [habs]; norm_num [opts₁])]
  apply detect_emitted_persistence [price₀] opts₁ 5000 emptyBuffer
    (fun k p h => Option.noConfusion h)
  rw [detectArbitrage_fst]
  unfold detectLoop
  rw [List.foldl_cons, List.foldl_nil, h1]
  rw [processQualified_opps]
  rw [show entryFor (⟨emptyBuffer, [], []⟩ : DetectState).buffer
      (qualifiedKey price₀ (spreadOf price₀)) 5000 price₀ (spreadOf price₀) =
      freshEntry (qualifiedKey price₀ (spreadOf price₀)) 5000 price₀ (spreadOf price₀)
    from rfl]
  rw [if_pos (Or.inl (by norm_num [freshEntry, opts₁]))]
  rw [mem_sortByProfitDesc]
  simp

/-- C6: a price pair whose computed `|spreadPct|` is below `minSpreadPct`
neither inserts nor updates any persistence-buffer entry in that poll and
never emits an opportunity: its poll step is the identity, and running
`detectArbitrage` on it alone equals running it on no input at all. -/
theorem detect_below_threshold_skipped (opts : DetectOpts) (t : ℤ)
    (st : DetectState) (buf : Buffer) (p : DiscoveredPrice)
    (hb : p.binancePrice ≠ 0) (hi : p.indianPrice ≠ 0)
    (hs : |spreadOf p| < opts.minSpreadPct) :
    processPrice opts t st p = st ∧
    detectArbitrage [p] opts t buf = detectArbitrage [] opts t buf := by
  have hstep : ∀ s : DetectState, processPrice opts t s p = s := by
    intro s
    unfold processPrice
    rw [if_neg (by simp [hb, hi]), if_pos hs]
  refine ⟨hstep st, ?_⟩
  unfold detectArbitrage detectLoop
  rw [List.foldl_cons, List.foldl_nil, List.foldl_nil, hstep]

/-- Witness for C6: a 0.2 % spread (50000 vs 50100) is below the default
0.5 % threshold and leaves the detector state untouched. -/
theorem detect_below_threshold_skipped_witness :
    processPrice {} 0 ⟨emptyBuffer, [], []⟩ ⟨"BTCUSDT", 50000, 50100⟩ =
      ⟨emptyBuffer, [], []⟩ :=
  (detect_below_threshold_skipped {} 0 ⟨emptyBuffer, [], []⟩ emptyBuffer
    ⟨"BTCUSDT", 50000, 50100⟩ (by norm_num) (by norm_num)
    (by norm_num [spreadOf, abs])).1

/-- Observing a key cannot remove it from the seen set. -/
theorem processPrice_seenKeys_mono (opts : DetectOpts) (t : ℤ) (st : DetectState)
    (p : DiscoveredPrice) (k : String) (hk : k ∈ st.seenKeys) :
    k ∈ (processPrice opts t st p).seenKeys := by
  rcases processPrice_eq_self_or_qualified opts t st p with h | h
  · rw [h]; exact hk
  · rw [h, processQualified_seenKeys]; exact List.mem_append_left _ hk

/-- A poll step leaves the buffer unchanged at every key it did not see. -/
theorem processPrice_not_seen (opts : DetectOpts) (t : ℤ) (st : DetectState)
    (p : DiscoveredPrice) (k : String)
    (hk : k ∉ (processPrice opts t st p).seenKeys) :
    (processPrice opts t st p).buffer k = st.buffer k ∧ k ∉ st.seenKeys := by
  rcases processPrice_eq_self_or_qualified opts t st p with h | h
  · rw [h] at hk ⊢
    exact ⟨rfl, hk⟩
  · rw [h] at hk ⊢
    rw [processQualified_seenKeys] at hk
    have hne : k ≠ qualifiedKey p (spreadOf p) := by
      intro he
      exact hk (List.mem_append_right _ (by simp [he]))
    rw [processQualified_buffer_apply, if_neg hne]
    exact ⟨rfl, fun hmem => hk (List.mem_append_left _ hmem)⟩

/-- Seen keys only grow along the poll loop. -/
theorem detectLoop_seen_mono (prices : List DiscoveredPrice) (opts : DetectOpts)
    (t : ℤ) (st : DetectState) (k : String) (hk : k ∈ st.seenKeys) :
    k ∈ (prices.foldl (processPrice opts t) st).seenKeys := by
  induction prices generalizing st with
  | nil => exact hk
  | cons p ps ih =>
    rw [List.foldl_cons]
    exact ih _ (processPrice_seenKeys_mono opts t st p k hk)

/-- The poll loop leaves the buffer unchanged at every key it never saw. -/
theorem detectLoop_untouched (prices : List DiscoveredPrice) (opts : DetectOpts)
    (t : ℤ) (st : DetectState) (k : String)
    (hk : k ∉ (prices.foldl (processPrice opts t) st).seenKeys) :
    (prices.foldl (processPrice opts t) st).buffer k = st.buffer k := by
  induction prices generalizing st with
  | nil => rfl
  | cons p ps ih =>
    rw [List.foldl_cons] at hk ⊢
    have h2 : k ∉ (processPrice opts t st p).seenKeys := fun hmem =>
      hk (detectLoop_seen_mono ps opts t _ k hmem)
    rw [ih _ hk, (processPrice_not_seen opts t st p k h2).1]

/-- Every key seen by the poll loop ends with a buffer entry. -/
theorem detectLoop_seen_buffer (prices : List DiscoveredPrice) (opts : DetectOpts)
    (t : ℤ) (st : DetectState)
    (hinv : ∀ k ∈ st.seenKeys, ∃ q, st.buffer k = some q) :
    ∀ k ∈ (prices.foldl (processPrice opts t) st).seenKeys,
      ∃ q, (prices.foldl (processPrice opts t) st).buffer k = some q := by
  induction prices generalizing st with
  | nil => exact hinv
  | cons p ps ih =>
    rw [List.foldl_cons]
    apply ih
    intro k hk
    rcases processPrice_eq_self_or_qualified opts t st p with h | h
    · rw [h] at hk ⊢
      exact hinv k hk
    · rw [h] at hk ⊢
      rw [processQualified_seenKeys] at hk
      rw [processQualified_buffer_apply]
      by_cases hke : k = qualifiedKey p (spreadOf p)
      · rw [if_pos hke]; exact ⟨_, rfl⟩
      · rw [if_neg hke]
        exact hinv k ((List.mem_append.mp hk).resolve_right (by simp [hke]))

/-- C8: after a `detectArbitrage` call, a buffered key not observed in this
poll is purged iff its entry is more than 10000 ms stale (otherwise its
entry survives unchanged), and every key observed in this poll remains
buffered. -/
theorem detect_gc (prices : List DiscoveredPrice) (opts : DetectOpts) (t : ℤ)
    (buf : Buffer) (k : String) :
    (k ∉ observedKeys prices opts t buf →
      ∀ p, buf k = some p →
        ((t - p.lastSeenTs > 10000 → (detectArbitrage prices opts t buf).2 k = none) ∧
          (t - p.lastSeenTs ≤ 10000 → (detectArbitrage prices opts t buf).2 k = some p))) ∧
    (k ∈ observedKeys prices opts t buf →
      ∃ q, (detectArbitrage prices opts t buf).2 k = some q) := by
  constructor
  · intro hk p hp
    have hk' : k ∉ (detectLoop prices opts t buf).seenKeys := hk
    have huntouched : (detectLoop prices opts t buf).buffer k = buf k :=
      detectLoop_untouched prices opts t ⟨buf, [], []⟩ k hk
    constructor
    · intro hstale
      rw [detectArbitrage_snd]
      simp only [gcBuffer, huntouched, hp]
      rw [if_pos ⟨hk', hstale⟩]
    · intro hfresh
      rw [detectArbitrage_snd]
      simp only [gcBuffer, huntouched, hp]
      rw [if_neg fun hand => absurd hand.2 (not_lt.mpr hfresh)]
  · intro hk
    obtain ⟨q, hq⟩ := detectLoop_seen_buffer prices opts t ⟨buf, [], []⟩
      (by intro k hk'; simp at hk') k hk
    have hq' : (detectLoop prices opts t buf).buffer k = some q := hq
    have hk' : k ∈ (detectLoop prices opts t buf).seenKeys := hk
    rw [detectArbitrage_snd]
    simp only [gcBuffer, hq']
    rw [if_neg fun hand => hand.1 hk']
    exact ⟨q, rfl⟩

/-- Witness for C8: a buffered key absent from an empty poll at time 20000,
last seen at time 0, is purged. -/
theorem detect_gc_witness :
    (detectArbitrage [] opts₁ 20000 buf₁).2 "BTCUSDT_buy-binance-sell-india" = none :=
  ((detect_gc [] opts₁ 20000 buf₁ "BTCUSDT_buy-binance-sell-india").1
    (by simp [observedKeys, detectLoop]) entry₁ (by simp [buf₁])).1
    (by norm_num [entry₁])

end TradeSafe
